import Mathlib

/-!
Verification of the xtchd hash-chain core: a shallow embedding of
src/integrity.rs, src/xrows.rs and src/xtchr.rs, with theorems about the
hash-chain link construction, envelope reconstruction, chain-head reads,
the write sequencer and its error behaviour.
-/

namespace Xtchd

/-! Section 1: SHA-256 (the sha2 crate dependency of integrity.rs), over
UTF-8 bytes, words as Nat reduced mod 2^32. -/

def U32 : Nat := 4294967296

def add32 (a b : Nat) : Nat := (a + b) % U32

def rotr (n x : Nat) : Nat := (x / 2 ^ n + x % 2 ^ n * 2 ^ (32 - n)) % U32

def shr (n x : Nat) : Nat := x / 2 ^ n

def not32 (x : Nat) : Nat := 4294967295 - x % U32

def smallSigma0 (x : Nat) : Nat := rotr 7 x ^^^ rotr 18 x ^^^ shr 3 x

def smallSigma1 (x : Nat) : Nat := rotr 17 x ^^^ rotr 19 x ^^^ shr 10 x

def bigSigma0 (x : Nat) : Nat := rotr 2 x ^^^ rotr 13 x ^^^ rotr 22 x

def bigSigma1 (x : Nat) : Nat := rotr 6 x ^^^ rotr 11 x ^^^ rotr 25 x

def chFn (x y z : Nat) : Nat := (x &&& y) ^^^ (not32 x &&& z)

def majFn (x y z : Nat) : Nat := (x &&& y) ^^^ (x &&& z) ^^^ (y &&& z)

/-- Round constants of FIPS 180-4 (fractional cube roots of the first
sixty-four primes), written in decimal. -/
def shaK : List Nat :=
  [1116352408, 1899447441, 3049323471, 3921009573,
   961987163, 1508970993, 2453635748, 2870763221,
   3624381080, 310598401, 607225278, 1426881987,
   1925078388, 2162078206, 2614888103, 3248222580,
   3835390401, 4022224774, 264347078, 604807628,
   770255983, 1249150122, 1555081692, 1996064986,
   2554220882, 2821834349, 2952996808, 3210313671,
   3336571891, 3584528711, 113926993, 338241895,
   666307205, 773529912, 1294757372, 1396182291,
   1695183700, 1986661051, 2177026350, 2456956037,
   2730485921, 2820302411, 3259730800, 3345764771,
   3516065817, 3600352804, 4094571909, 275423344,
   430227734, 506948616, 659060556, 883997877,
   958139571, 1322822218, 1537002063, 1747873779,
   1955562222, 2024104815, 2227730452, 2361852424,
   2428436474, 2756734187, 3204031479, 3329325298]

/-- Initial digest state of FIPS 180-4 (fractional square roots of the
first eight primes), written in decimal. -/
def shaH0 : List Nat :=
  [1779033703, 3144134277, 1013904242, 2773480762,
   1359893119, 2600822924, 528734635, 1541459225]

/-- UTF-8 bytes of one character, matching the byte view Rust uses for
String::as_bytes. -/
def utf8Bytes (c : Char) : List Nat :=
  let n := c.toNat
  if n < 128 then [n]
  else if n < 2048 then [192 + n / 64, 128 + n % 64]
  else if n < 65536 then [224 + n / 4096, 128 + n / 64 % 64, 128 + n % 64]
  else [240 + n / 262144, 128 + n / 4096 % 64, 128 + n / 64 % 64, 128 + n % 64]

def strBytes (s : String) : List Nat := (s.data.map utf8Bytes).flatten

/-- Big-endian byte list (length 8) of a 64-bit message length. -/
def lenBytes (n : Nat) : List Nat :=
  [n / 2 ^ 56 % 256, n / 2 ^ 48 % 256, n / 2 ^ 40 % 256, n / 2 ^ 32 % 256,
   n / 2 ^ 24 % 256, n / 2 ^ 16 % 256, n / 2 ^ 8 % 256, n % 256]

/-- Padding per FIPS 180-4: append 0x80, zero bytes to 56 mod 64, then the
bit length as 8 big-endian bytes. -/
def padMessage (msg : List Nat) : List Nat :=
  let L := msg.length
  let k := (55 + 64 - L % 64) % 64
  msg ++ [128] ++ List.replicate k 0 ++ lenBytes (8 * L)

/-- Group a byte list into blocks of 64, with an explicit fuel argument for
structural recursion. -/
def splitBlocksAux : Nat → List Nat → List (List Nat)
  | 0, _ => []
  | _ + 1, [] => []
  | fuel + 1, bs => bs.take 64 :: splitBlocksAux fuel (bs.drop 64)

def splitBlocks (bs : List Nat) : List (List Nat) := splitBlocksAux bs.length bs

/-- Sixteen big-endian 32-bit words from one 64-byte block, with fuel. -/
def blockWordsAux : Nat → List Nat → List Nat
  | 0, _ => []
  | _ + 1, b0 :: b1 :: b2 :: b3 :: rest =>
      (b0 * 2 ^ 24 + b1 * 2 ^ 16 + b2 * 2 ^ 8 + b3) :: blockWordsAux (rest.length) rest
  | _ + 1, _ => []

def blockWords (block : List Nat) : List Nat := blockWordsAux block.length block

/-- Extend the 16-word schedule to 64 words; the accumulator holds the words
most recent first. -/
def extendW : Nat → List Nat → List Nat
  | 0, rev => rev
  | n + 1, rev =>
      let g := fun i => (rev.get? i).getD 0
      let next := (smallSigma1 (g 1) + g 6 + smallSigma0 (g 14) + g 15) % U32
      extendW n (next :: rev)

def schedule (block : List Nat) : List Nat :=
  (extendW 48 (blockWords block).reverse).reverse

structure ShaState where
  a : Nat
  b : Nat
  c : Nat
  d : Nat
  e : Nat
  f : Nat
  g : Nat
  hh : Nat
  deriving DecidableEq

def compressStep (st : ShaState) (wk : Nat × Nat) : ShaState :=
  let t1 := (st.hh + bigSigma1 st.e + chFn st.e st.f st.g + wk.2 + wk.1) % U32
  let t2 := (bigSigma0 st.a + majFn st.a st.b st.c) % U32
  { a := add32 t1 t2, b := st.a, c := st.b, d := st.c,
    e := add32 st.d t1, f := st.e, g := st.f, hh := st.g }

def stateOfList : List Nat → ShaState
  | [a, b, c, d, e, f, g, hh] => ⟨a, b, c, d, e, f, g, hh⟩
  | _ => ⟨0, 0, 0, 0, 0, 0, 0, 0⟩

def listOfState (st : ShaState) : List Nat :=
  [st.a, st.b, st.c, st.d, st.e, st.f, st.g, st.hh]

def processBlock (hs : List Nat) (block : List Nat) : List Nat :=
  let w := schedule block
  let st := ((w.zip shaK).foldl compressStep (stateOfList hs))
  (hs.zip (listOfState st)).map fun p => add32 p.1 p.2

def digestWords (msg : List Nat) : List Nat :=
  ((splitBlocks (padMessage msg)).foldl processBlock shaH0)

def hexDigit (n : Nat) : Char :=
  if n < 10 then Char.ofNat (48 + n) else Char.ofNat (87 + n % 16)

def byteHex (b : Nat) : List Char := [hexDigit (b / 16), hexDigit (b % 16)]

def wordBytes (w : Nat) : List Nat :=
  [w / 2 ^ 24 % 256, w / 2 ^ 16 % 256, w / 2 ^ 8 % 256, w % 256]

/-- Lowercase hexadecimal SHA-256 digest of a string, as produced by
integrity.rs sha256 via the sha2 crate and a lowercase hex format. -/
def sha256 (input : String) : String :=
  String.mk ((((digestWords (strBytes input)).map wordBytes).flatten.map byteHex).flatten)

/-! Section 2: decimal formatting (the Display impls the Rust format macro
calls for i32 fields), timestamps and time_fmt, and nonefmt. -/

/-- Decimal digit character for the values 0 through 9. -/
def digitChar (n : Nat) : Char :=
  match n with
  | 0 => '0'
  | 1 => '1'
  | 2 => '2'
  | 3 => '3'
  | 4 => '4'
  | 5 => '5'
  | 6 => '6'
  | 7 => '7'
  | 8 => '8'
  | _ => '9'

/-- Decimal digits of a natural number, most significant first, prepended
to an accumulator; structural recursion on a fuel bound so the kernel can
evaluate it. -/
def natFmtAux : Nat → Nat → List Char → List Char
  | 0, _, acc => acc
  | fuel + 1, n, acc =>
      if n < 10 then digitChar (n % 10) :: acc
      else natFmtAux fuel (n / 10) (digitChar (n % 10) :: acc)

/-- Decimal digits of a natural number, most significant first. -/
def natDigits (n : Nat) : List Char := natFmtAux (n + 1) n []

def natFmt (n : Nat) : String := String.mk (natDigits n)

/-- Decimal rendering of a signed integer, matching the Display output Rust
produces for an i32. -/
def intFmt : Int → String
  | Int.ofNat n => natFmt n
  | Int.negSucc n => "-" ++ natFmt (n + 1)

/-- Zero-padding to a fixed width, as the chrono format specifiers pad the
year to four digits and the other fields to two. -/
def padNum (w n : Nat) : String :=
  String.mk (List.replicate (w - (natFmt n).length) '0') ++ natFmt n

/-- Wall-clock timestamp with whole-second calendar fields plus the
sub-second nanoseconds a chrono timestamp carries. -/
structure DateTime where
  year : Nat
  month : Nat
  day : Nat
  hour : Nat
  minute : Nat
  second : Nat
  nanos : Nat
  deriving DecidableEq

/-- Model of integrity.rs time_fmt: chrono formatting with the pattern
percentY.percentm.percentd percentH:percentM:percentS, which renders whole
seconds only and is locale independent. -/
def time_fmt (ts : DateTime) : String :=
  padNum 4 ts.year ++ "." ++ padNum 2 ts.month ++ "." ++ padNum 2 ts.day ++ " " ++
  padNum 2 ts.hour ++ ":" ++ padNum 2 ts.minute ++ ":" ++ padNum 2 ts.second

/-- Model of integrity.rs nonefmt: a None renders as the empty string and a
Some renders as the bare value, with the Display instance passed explicitly. -/
def nonefmt (fmt : α → String) : Option α → String
  | some val => fmt val
  | none => ""

/-! Section 3: the Xtchable capability and the content types of xrows.rs. -/

/-- Model of the Xtchable trait of integrity.rs: a canonical state string
plus a stable type tag. -/
class Xtchable (T : Type) where
  state_string : T → String
  dtype : String

/-- Model of xrows.rs Author. -/
structure Author where
  auth_id : Int
  name : String
  deriving DecidableEq

/-- Model of the Xtchable state_string impl for Author in xrows.rs. -/
def Author.state_string (a : Author) : String :=
  "auth_id=" ++ intFmt a.auth_id ++ " name=" ++ a.name

instance : Xtchable Author where
  state_string := Author.state_string
  dtype := "Author"

/-- Model of xrows.rs PageSrc. -/
inductive PageSrc where
  | author : String → PageSrc
  | xtchd : Int → PageSrc
  | wpTxYt : Int → PageSrc
  deriving DecidableEq

/-- Model of PageSrc::src_columns. -/
def PageSrc.src_columns : PageSrc → Option Int × Option String × Option Int
  | PageSrc.author val => (none, some val, none)
  | PageSrc.xtchd val => (none, none, some val)
  | PageSrc.wpTxYt val => (some val, none, none)

/-- Model of xrows.rs ArticlePage. -/
structure ArticlePage where
  art_id : Int
  apage_id : Int
  paragraphs : List String
  source : PageSrc
  deriving DecidableEq

/-- Model of the Xtchable state_string impl for ArticlePage in xrows.rs:
the paragraphs joined with a bar separator, the source columns through
nonefmt. -/
def ArticlePage.state_string (p : ArticlePage) : String :=
  let cols := p.source.src_columns
  "art_id=" ++ intFmt p.art_id ++ " apage_id=" ++ intFmt p.apage_id ++
  " paragraphs=" ++ String.intercalate " | " p.paragraphs ++
  " img_id=" ++ nonefmt intFmt cols.1 ++
  " image_file=" ++ nonefmt id cols.2.1 ++
  " refs_art_id=" ++ nonefmt intFmt cols.2.2

instance : Xtchable ArticlePage where
  state_string := ArticlePage.state_string
  dtype := "ArticlePage"

/-- Model of xrows.rs ImagePair. -/
structure ImagePair where
  src_full : String
  src_thmb : String
  alt : String
  url : Option String
  archive : Option String
  deriving DecidableEq

/-- Model of xrows.rs ImmutableImage. -/
structure ImmutableImage where
  img_id : Int
  pair : ImagePair
  deriving DecidableEq

/-- Model of the Xtchable state_string impl for ImmutableImage in
xrows.rs, with the two optional fields through nonefmt. -/
def ImmutableImage.state_string (ii : ImmutableImage) : String :=
  "img_id=" ++ intFmt ii.img_id ++ " src_full=" ++ ii.pair.src_full ++
  " src_thmb=" ++ ii.pair.src_thmb ++ " alt=" ++ ii.pair.alt ++
  " url=" ++ nonefmt id ii.pair.url ++ " archive=" ++ nonefmt id ii.pair.archive

instance : Xtchable ImmutableImage where
  state_string := ImmutableImage.state_string
  dtype := "Image"

/-- Model of xrows.rs RefFrom. -/
structure RefFrom where
  art_id : Int
  apara_id : Option Int
  comment : String
  deriving DecidableEq

/-- Model of xrows.rs ArticleRefArticle. -/
structure ArticleRefArticle where
  aref_id : Int
  rf : RefFrom
  refs_art : Int
  refs_para : Option Int
  deriving DecidableEq

/-- Model of the Xtchable state_string impl for ArticleRefArticle in
xrows.rs, with the two optional paragraph ids through nonefmt. -/
def ArticleRefArticle.state_string (r : ArticleRefArticle) : String :=
  "aref_id=" ++ intFmt r.aref_id ++ " from_art=" ++ intFmt r.rf.art_id ++
  " from_para=" ++ nonefmt intFmt r.rf.apara_id ++ " refs_art=" ++ intFmt r.refs_art ++
  " refs_para=" ++ nonefmt intFmt r.refs_para ++ " comment=" ++ r.rf.comment

instance : Xtchable ArticleRefArticle where
  state_string := ArticleRefArticle.state_string
  dtype := "ArticleRefArticle"

/-- Model of xrows.rs ArticleRefArticleReq. -/
structure ArticleRefArticleReq where
  rf : RefFrom
  refs_art : Int
  refs_para : Option Int
  deriving DecidableEq

/-- Model of ArticleRefArticle::from_req. -/
def ArticleRefArticle.from_req (req : ArticleRefArticleReq) (aref_id : Int) : ArticleRefArticle :=
  { aref_id := aref_id, rf := req.rf, refs_art := req.refs_art, refs_para := req.refs_para }

/-- Calendar date, modelling chrono NaiveDate as used by YoutubeVideo. -/
structure NaiveDate where
  year : Nat
  month : Nat
  day : Nat
  deriving DecidableEq

/-- Model of xrows.rs YoutubeVideo. -/
structure YoutubeVideo where
  chan_id : Int
  vid_id : Int
  vid_pk : String
  title : String
  date_uploaded : NaiveDate
  deriving DecidableEq

/-- Model of the Xtchable state_string impl for YoutubeVideo in xrows.rs. -/
def YoutubeVideo.state_string (v : YoutubeVideo) : String :=
  "vid_id=" ++ intFmt v.vid_id ++ " vid_pk=" ++ v.vid_pk ++
  " chan_id=" ++ intFmt v.chan_id ++ " title=" ++ v.title

instance : Xtchable YoutubeVideo where
  state_string := YoutubeVideo.state_string
  dtype := "YoutubeVideo"

/-- Model of xrows.rs YoutubeChannel. -/
structure YoutubeChannel where
  chan_id : Int
  url : String
  name : String
  deriving DecidableEq

/-- Model of the Xtchable state_string impl for YoutubeChannel in
xrows.rs. -/
def YoutubeChannel.state_string (c : YoutubeChannel) : String :=
  "chan_id=" ++ intFmt c.chan_id ++ " name=" ++ c.name ++ " url=" ++ c.url

instance : Xtchable YoutubeChannel where
  state_string := YoutubeChannel.state_string
  dtype := "YoutubeChannel"

/-- Modelled from the spec: the xrows.rs Article struct is referenced from
xtchr.rs and views.rs (fields art_id, auth_id, title, image_file at its
construction sites) but its impl block is absent from the snapshot; its
state string follows the fixed-order field contract of section 3 of the
spec, as in the ArticleTitle impl, with the optional field via nonefmt. -/
structure Article where
  art_id : Int
  auth_id : Int
  title : String
  image_file : Option String
  deriving DecidableEq

/-- Modelled from the spec: state string for Article, following the fixed
field order contract; the impl is absent from the snapshot. -/
def Article.state_string (a : Article) : String :=
  "art_id=" ++ intFmt a.art_id ++ " auth_id=" ++ intFmt a.auth_id ++
  " title=" ++ a.title ++ " image_file=" ++ nonefmt id a.image_file

instance : Xtchable Article where
  state_string := Article.state_string
  dtype := "Article"

/-- Modelled from the spec: the xrows.rs ArticlePara impl is absent from the
snapshot; the fields follow its construction site in xtchr.rs and the state
string follows the rows.rs impl of the same struct. -/
structure ArticlePara where
  art_id : Int
  apara_id : Int
  md : String
  deriving DecidableEq

/-- Model of the state_string impl for ArticlePara as given in rows.rs. -/
def ArticlePara.state_string (p : ArticlePara) : String :=
  "apara_id=" ++ intFmt p.apara_id ++ " art_id=" ++ intFmt p.art_id ++ " md=" ++ p.md

instance : Xtchable ArticlePara where
  state_string := ArticlePara.state_string
  dtype := "ArticlePara"

/-! Section 4: hash chain link and envelope (integrity.rs). -/

/-- Model of integrity.rs HashChainLink. -/
structure HashChainLink where
  write_timestamp : DateTime
  string_to_hash : String
  deriving DecidableEq

/-- Model of HashChainLink::from_timestamp. -/
def HashChainLink.from_timestamp [Xtchable T] (prior_sha256 : String)
    (write_timestamp : DateTime) (content : T) : HashChainLink :=
  { write_timestamp := write_timestamp,
    string_to_hash := Xtchable.state_string content ++ " write_timestamp=" ++
      time_fmt write_timestamp ++ " prior_sha256=" ++ prior_sha256 }

/-- Model of HashChainLink::new_sha256. -/
def HashChainLink.new_sha256 (hcl : HashChainLink) : String := sha256 hcl.string_to_hash

/-- Model of integrity.rs XtchdSQL: the four persisted facts plus the stored
hash, as deserialized from a row. -/
structure XtchdSQL (T : Type) [Xtchable T] where
  prior_id : Option Int
  prior_sha256 : String
  content : T
  write_timestamp : DateTime
  new_sha256 : String

/-- Model of integrity.rs XtchdContent. -/
structure XtchdContent (T : Type) [Xtchable T] where
  dtype : String
  prior_id : Option Int
  prior_sha256 : String
  content : T
  hcl : HashChainLink
  write_timestamp_str : String
  new_sha256 : String

/-- Model of XtchdContent::new. -/
def XtchdContent.new [Xtchable T] (prior_id : Option Int) (prior_sha256 : String)
    (write_timestamp : DateTime) (content : T) (new_sha256 : String) : XtchdContent T :=
  { dtype := Xtchable.dtype T,
    prior_id := prior_id,
    prior_sha256 := prior_sha256,
    content := content,
    hcl := HashChainLink.from_timestamp prior_sha256 write_timestamp content,
    write_timestamp_str := time_fmt write_timestamp,
    new_sha256 := new_sha256 }

/-- Model of XtchdContent::from_sql. -/
def XtchdContent.from_sql [Xtchable T] (xsql : XtchdSQL T) : XtchdContent T :=
  XtchdContent.new xsql.prior_id xsql.prior_sha256 xsql.write_timestamp xsql.content xsql.new_sha256

/-! Section 5: the sequencer (xtchr.rs): chain-head reads, id assignment,
and the write operations, with the database modelled as an explicit row
list and each database round trip as an explicit outcome. -/

/-- Modelled from the spec: the pachydurable DiskError type is an external
dependency; the spec error taxonomy lists a transient I/O failure, a
missing-row condition and an integrity violation as its distinct cases. -/
inductive DiskError where
  | transient : DiskError
  | missingRow : DiskError
  | integrityViolation : DiskError
  deriving DecidableEq

/-- Model of xtchr.rs LastRow. -/
structure LastRow where
  prior_id : Option Int
  prior_sha256 : String
  deriving DecidableEq

/-- Model of LastRow::next_id. -/
def LastRow.next_id (lr : LastRow) : Int :=
  match lr.prior_id with
  | none => 0
  | some i => i + 1

/-- Genesis sentinel: the all-zero predecessor hash literal of
get_last_row in xtchr.rs. -/
def GENESIS : String :=
  "0000000000000000000000000000000000000000000000000000000000000000"

/-- Model of get_last_row in xtchr.rs applied to the rows its query
returned: the first row if any, else no predecessor and the sentinel. -/
def get_last_row (rows : List (Int × String)) : LastRow :=
  match rows.head? with
  | some r => { prior_id := some r.1, prior_sha256 := r.2 }
  | none => { prior_id := none, prior_sha256 := GENESIS }

/-- Row with the highest id, modelling the ORDER BY id DESC of the
chain-head queries; ties keep the earlier row. -/
def maxRow : List (Int × String) → Option (Int × String)
  | [] => none
  | r :: rs =>
      match maxRow rs with
      | none => some r
      | some m => some (if r.1 < m.1 then m else r)

/-- Result set of a chain-head query (ORDER BY id DESC LIMIT 1) against a
table holding the given id and hash pairs. -/
def chain_head_query (table : List (Int × String)) : List (Int × String) :=
  match maxRow table with
  | none => []
  | some m => [m]

/-- Outcome of a Rust call as the caller observes it: a returned value, a
returned error, or a panic (the unwrap path, which returns nothing). -/
inductive RustOutcome (α : Type) where
  | ok : α → RustOutcome α
  | err : DiskError → RustOutcome α
  | panicked : RustOutcome α
  deriving DecidableEq

/-- Model of Xtchr::add_author with its two database round trips made
explicit: the chain-head lookup result and the insert result are inputs,
and each is consumed with unwrap in the source, so a failure of either
ends in a panic rather than an error return. -/
def add_author_io (lookup : Except DiskError (List (Int × String)))
    (insertRes : Except DiskError Nat) (t : DateTime) (name : String) :
    RustOutcome (Author × HashChainLink) :=
  match lookup with
  | Except.error _ => RustOutcome.panicked
  | Except.ok rows =>
      let last_author := get_last_row rows
      let auth_id := last_author.next_id
      let author : Author := { auth_id := auth_id, name := name }
      let hclink := HashChainLink.from_timestamp last_author.prior_sha256 t author
      match insertRes with
      | Except.error _ => RustOutcome.panicked
      | Except.ok _ => RustOutcome.ok (author, hclink)

/-- Model of Xtchr::add_ref_article with its two database round trips made
explicit; both are consumed with unwrap in the source. -/
def add_ref_article_io (lookup : Except DiskError (List (Int × String)))
    (insertRes : Except DiskError Nat) (t : DateTime) (req : ArticleRefArticleReq) :
    RustOutcome Int :=
  match lookup with
  | Except.error _ => RustOutcome.panicked
  | Except.ok rows =>
      let last_ref := get_last_row rows
      let aref_id := last_ref.next_id
      let aref := ArticleRefArticle.from_req req aref_id
      let _hclink := HashChainLink.from_timestamp last_ref.prior_sha256 t aref
      match insertRes with
      | Except.error _ => RustOutcome.panicked
      | Except.ok _ => RustOutcome.ok aref_id

/-- Row of the authors table carrying the columns of the INSERT in
Xtchr::add_author. -/
structure AuthorRow where
  prior_id : Option Int
  auth_id : Int
  name : String
  prior_sha256 : String
  write_timestamp : DateTime
  new_sha256 : String

/-- State-level result of add_author: the table after the insert plus the
returned pair. -/
structure AddAuthorResult where
  table : List AuthorRow
  author : Author
  hclink : HashChainLink

/-- Model of Xtchr::add_author over the authors table: read the chain head,
assign the next id, build the link, run the single INSERT (appending one
row with the bound columns), and return the content with its link. -/
def add_author_state (tbl : List AuthorRow) (t : DateTime) (name : String) : AddAuthorResult :=
  let last_author := get_last_row (chain_head_query (tbl.map fun r => (r.auth_id, r.new_sha256)))
  let auth_id := last_author.next_id
  let author : Author := { auth_id := auth_id, name := name }
  let hclink := HashChainLink.from_timestamp last_author.prior_sha256 t author
  let row : AuthorRow :=
    { prior_id := last_author.prior_id, auth_id := author.auth_id, name := author.name,
      prior_sha256 := last_author.prior_sha256, write_timestamp := hclink.write_timestamp,
      new_sha256 := hclink.new_sha256 }
  { table := tbl ++ [row], author := author, hclink := hclink }

/-- Row of the youtube_videos table carrying the columns of the INSERT in
Xtchr::add_youtube_video. -/
structure VideoRow where
  prior_id : Option Int
  vid_id : Int
  vid_pk : String
  chan_id : Int
  title : String
  date_uploaded : NaiveDate
  prior_sha256 : String
  write_timestamp : DateTime
  new_sha256 : String

/-- State-level result of add_youtube_video. -/
structure AddVideoResult where
  table : List VideoRow
  video : YoutubeVideo
  hclink : HashChainLink

/-- Insert with ON CONFLICT (vid_pk) DO NOTHING: when a row with the same
vid_pk exists the table is unchanged, else the row is appended. -/
def videos_insert (tbl : List VideoRow) (row : VideoRow) : List VideoRow :=
  if tbl.any fun r => r.vid_pk == row.vid_pk then tbl else tbl ++ [row]

/-- Model of Xtchr::add_youtube_video over the youtube_videos table: the
INSERT carries ON CONFLICT (vid_pk) DO NOTHING, and the video with its
link is returned whether or not a row was written. -/
def add_youtube_video_state (tbl : List VideoRow) (t : DateTime) (chan_id : Int)
    (vid_pk title : String) (date_uploaded : NaiveDate) : AddVideoResult :=
  let last_vid := get_last_row (chain_head_query (tbl.map fun r => (r.vid_id, r.new_sha256)))
  let vid_id := last_vid.next_id
  let video : YoutubeVideo :=
    { chan_id := chan_id, vid_id := vid_id, vid_pk := vid_pk, title := title,
      date_uploaded := date_uploaded }
  let hclink := HashChainLink.from_timestamp last_vid.prior_sha256 t video
  let row : VideoRow :=
    { prior_id := last_vid.prior_id, vid_id := vid_id, vid_pk := video.vid_pk,
      chan_id := video.chan_id, title := video.title, date_uploaded := video.date_uploaded,
      prior_sha256 := last_vid.prior_sha256, write_timestamp := hclink.write_timestamp,
      new_sha256 := hclink.new_sha256 }
  { table := videos_insert tbl row, video := video, hclink := hclink }

/-- Row of the articles table carrying the columns of the INSERT in
Xtchr::add_article. -/
structure ArticleRow where
  prior_id : Option Int
  art_id : Int
  auth_id : Int
  title : String
  prior_sha256 : String
  write_timestamp : DateTime
  new_sha256 : String
  image_file : Option String

/-- State-level result of add_article: both touched tables, the returned
pair, and the number of INSERT statements the call issued. -/
structure AddArticleResult where
  articles : List ArticleRow
  image_files : List String
  article : Article
  hclink : HashChainLink
  statements : Nat

/-- Insert into image_files with ON CONFLICT (image_file) DO NOTHING. -/
def image_files_insert (tbl : List String) (f : String) : List String :=
  if tbl.any fun x => x == f then tbl else tbl ++ [f]

/-- Model of Xtchr::add_article over the articles and image_files tables:
when an image file is given, a second INSERT into image_files is issued
before the articles INSERT, so the call is not a single statement. -/
def add_article_state (atbl : List ArticleRow) (ifiles : List String) (t : DateTime)
    (auth_id : Int) (title : String) (image_file : Option String) : AddArticleResult :=
  let last_article := get_last_row (chain_head_query (atbl.map fun r => (r.art_id, r.new_sha256)))
  let art_id := last_article.next_id
  let ifiles2 := match image_file with
    | none => ifiles
    | some filename => image_files_insert ifiles filename
  let article : Article :=
    { art_id := art_id, auth_id := auth_id, title := title, image_file := image_file }
  let hclink := HashChainLink.from_timestamp last_article.prior_sha256 t article
  let row : ArticleRow :=
    { prior_id := last_article.prior_id, art_id := art_id, auth_id := auth_id,
      title := article.title, prior_sha256 := last_article.prior_sha256,
      write_timestamp := hclink.write_timestamp, new_sha256 := hclink.new_sha256,
      image_file := article.image_file }
  { articles := atbl ++ [row], image_files := ifiles2, article := article, hclink := hclink,
    statements := match image_file with | none => 1 | some _ => 2 }

/-! Section 6: the single-row detail reads of xtchr.rs (article_text and
author_detail) over the rows their queries returned. -/

/-- Model of views.rs NameId. -/
structure NameId where
  id : Int
  name : String

/-- Row of the article_text view as the query in Xtchr::article_text
selects it. -/
structure ArticleTextRow where
  author : XtchdContent Author
  article : XtchdContent Article
  art_paras : List (XtchdContent ArticlePara)

/-- Model of views.rs ArticleText. -/
structure ArticleText where
  author : XtchdContent Author
  article : XtchdContent Article
  paragraphs : List (XtchdContent ArticlePara)

/-- Model of Xtchr::article_text applied to the rows its query returned: no
row is the distinct missing-row error, else the first row is unpacked. -/
def article_text (rows : List ArticleTextRow) : Except DiskError ArticleText :=
  match rows.head? with
  | none => Except.error DiskError.missingRow
  | some row =>
      Except.ok { author := row.author, article := row.article, paragraphs := row.art_paras }

/-- Row of the author_detail view as the query in Xtchr::author_detail
selects it. -/
structure AuthorDetailRow where
  prior_id : Option Int
  name : String
  prior_sha256 : String
  write_timestamp : DateTime
  new_sha256 : String
  authored : List NameId

/-- Model of views.rs AuthorDetail. -/
structure AuthorDetail where
  author : XtchdContent Author
  articles : List NameId

/-- Model of Xtchr::author_detail applied to the rows its query returned:
no row is the distinct missing-row error, else the envelope is rebuilt
with XtchdContent::new from the row facts. -/
def author_detail (auth_id : Int) (rows : List AuthorDetailRow) : Except DiskError AuthorDetail :=
  match rows.head? with
  | none => Except.error DiskError.missingRow
  | some row =>
      let content : Author := { auth_id := auth_id, name := row.name }
      let author := XtchdContent.new row.prior_id row.prior_sha256 row.write_timestamp content row.new_sha256
      Except.ok { author := author, articles := row.authored }

/-! Section 7: lemmas about the decimal formatter, leading to injectivity
of the Author state string. -/

theorem digitChar_toNat_range (k : Nat) : 48 ≤ (digitChar k).toNat ∧ (digitChar k).toNat ≤ 57 := by
  unfold digitChar
  split <;> decide

theorem digitChar_inj {m n : Nat} (hm : m < 10) (hn : n < 10) :
    digitChar m = digitChar n → m = n := by
  interval_cases m <;> interval_cases n <;> decide

theorem natFmtAux_append (fuel : Nat) : ∀ (n : Nat) (acc : List Char),
    natFmtAux fuel n acc = natFmtAux fuel n [] ++ acc := by
  induction fuel with
  | zero => intro n acc; rfl
  | succ fuel ih =>
    intro n acc
    simp only [natFmtAux]
    by_cases h : n < 10
    · simp [h]
    · simp only [h, if_false]
      rw [ih (n / 10) (digitChar (n % 10) :: acc), ih (n / 10) [digitChar (n % 10)]]
      simp

theorem natFmtAux_fuel : ∀ (f1 f2 n : Nat) (acc : List Char), n < f1 → n < f2 →
    natFmtAux f1 n acc = natFmtAux f2 n acc := by
  intro f1
  induction f1 with
  | zero => intro f2 n acc h1 _; omega
  | succ f1 ih =>
    intro f2 n acc h1 h2
    cases f2 with
    | zero => omega
    | succ f2 =>
      simp only [natFmtAux]
      by_cases h : n < 10
      · simp [h]
      · simp only [h, if_false]
        have hd : n / 10 < n := Nat.div_lt_self (by omega) (by omega)
        exact ih f2 (n / 10) _ (by omega) (by omega)

theorem natDigits_closed (n : Nat) :
    natDigits n =
      if n < 10 then [digitChar n]
      else natDigits (n / 10) ++ [digitChar (n % 10)] := by
  by_cases h : n < 10
  · simp only [natDigits, natFmtAux, h, if_true, Nat.mod_eq_of_lt h]
  · have hdlt : n / 10 < n := Nat.div_lt_self (by omega) (by omega)
    have step : natDigits n = natFmtAux n (n / 10) [digitChar (n % 10)] := by
      simp only [natDigits, natFmtAux, h, if_false]
    rw [step, natFmtAux_append n (n / 10) [digitChar (n % 10)]]
    simp only [h, if_false]
    congr 1
    show natFmtAux n (n / 10) [] = natFmtAux (n / 10 + 1) (n / 10) []
    exact natFmtAux_fuel n (n / 10 + 1) (n / 10) [] (by omega) (by omega)

theorem natDigits_ne_nil (n : Nat) : natDigits n ≠ [] := by
  rw [natDigits_closed]
  by_cases h : n < 10 <;> simp [h]

theorem mem_natDigits_digit {c : Char} {n : Nat} (hc : c ∈ natDigits n) :
    48 ≤ c.toNat ∧ c.toNat ≤ 57 := by
  induction n using Nat.strong_induction_on with
  | _ n ih =>
    rw [natDigits_closed] at hc
    by_cases h : n < 10
    · simp [h] at hc
      exact hc ▸ digitChar_toNat_range n
    · simp only [h, if_false, List.mem_append, List.mem_singleton] at hc
      rcases hc with hc | hc
      · exact ih (n / 10) (Nat.div_lt_self (by omega) (by omega)) hc
      · exact hc ▸ digitChar_toNat_range (n % 10)

theorem natDigits_inj (m : Nat) : ∀ n, natDigits m = natDigits n → m = n := by
  induction m using Nat.strong_induction_on with
  | _ m ih =>
    intro n hmn
    rw [natDigits_closed m, natDigits_closed n] at hmn
    by_cases hm : m < 10 <;> by_cases hn : n < 10
    · simp only [hm, hn, if_true, List.cons.injEq] at hmn
      exact digitChar_inj hm hn hmn.1
    · simp only [hm, hn, if_true, if_false] at hmn
      have hlen := congrArg List.length hmn
      simp only [List.length_singleton, List.length_append, Nat.add_comm] at hlen
      have : (natDigits (n / 10)).length = 0 := by omega
      exact absurd (List.length_eq_zero.mp this) (natDigits_ne_nil (n / 10))
    · simp only [hm, hn, if_true, if_false] at hmn
      have hlen := congrArg List.length hmn
      simp only [List.length_singleton, List.length_append, Nat.add_comm] at hlen
      have : (natDigits (m / 10)).length = 0 := by omega
      exact absurd (List.length_eq_zero.mp this) (natDigits_ne_nil (m / 10))
    · simp only [hm, hn, if_false] at hmn
      have hrev := congrArg List.reverse hmn
      simp only [List.reverse_append, List.reverse_cons, List.reverse_nil, List.nil_append,
        List.singleton_append, List.cons.injEq] at hrev
      have hmod : m % 10 = n % 10 :=
        digitChar_inj (Nat.mod_lt m (by omega)) (Nat.mod_lt n (by omega)) hrev.1
      have hdiv : m / 10 = n / 10 := by
        have := List.reverse_injective hrev.2
        exact ih (m / 10) (Nat.div_lt_self (by omega) (by omega)) (n / 10) this
      have h1 := Nat.div_add_mod m 10
      have h2 := Nat.div_add_mod n 10
      omega

theorem natFmt_inj {m n : Nat} (h : natFmt m = natFmt n) : m = n := by
  have hd := congrArg String.data h
  exact natDigits_inj m n hd

theorem intFmt_no_space {i : Int} {c : Char} (hc : c ∈ (intFmt i).data) : c ≠ ' ' := by
  match i with
  | Int.ofNat n =>
    have := mem_natDigits_digit (n := n) hc
    intro hsp
    rw [hsp] at this
    simp at this
  | Int.negSucc n =>
    simp only [intFmt] at hc
    rw [String.data_append] at hc
    rcases List.mem_append.mp hc with hd | hd
    · simp only [show ("-" : String).data = ['-'] from rfl, List.mem_singleton] at hd
      intro hsp
      rw [hsp] at hd
      exact absurd hd (by decide)
    · have := mem_natDigits_digit (n := n + 1) hd
      intro hsp
      rw [hsp] at this
      simp at this

theorem intFmt_inj {i j : Int} (h : intFmt i = intFmt j) : i = j := by
  match i, j with
  | Int.ofNat m, Int.ofNat n =>
    simp only [Int.ofNat.injEq]
    exact natFmt_inj h
  | Int.negSucc m, Int.negSucc n =>
    simp only [intFmt] at h
    have hd := congrArg String.data h
    rw [String.data_append, String.data_append] at hd
    simp only [show ("-" : String).data = ['-'] from rfl, List.singleton_append,
      List.cons.injEq, true_and] at hd
    have : natFmt (m + 1) = natFmt (n + 1) := by
      unfold natFmt
      exact congrArg String.mk hd
    have := natFmt_inj this
    simp only [Int.negSucc.injEq]
    omega
  | Int.ofNat m, Int.negSucc n =>
    exfalso
    simp only [intFmt] at h
    have hd := congrArg String.data h
    rw [String.data_append] at hd
    simp only [show ("-" : String).data = ['-'] from rfl, List.singleton_append] at hd
    have hmem : '-' ∈ (natFmt m).data := by
      rw [hd]
      exact List.mem_cons_self _ _
    have := mem_natDigits_digit (n := m) hmem
    simp at this
  | Int.negSucc m, Int.ofNat n =>
    exfalso
    simp only [intFmt] at h
    have hd := congrArg String.data h
    rw [String.data_append] at hd
    simp only [show ("-" : String).data = ['-'] from rfl, List.singleton_append] at hd
    have hmem : '-' ∈ (natFmt n).data := by
      rw [← hd]
      exact List.mem_cons_self _ _
    have := mem_natDigits_digit (n := n) hmem
    simp at this

/-- Splitting at the first space is unambiguous when neither left part
contains a space. -/
theorem no_space_sep : ∀ (a b tail1 tail2 : List Char),
    (∀ c ∈ a, c ≠ ' ') → (∀ c ∈ b, c ≠ ' ') →
    a ++ ' ' :: tail1 = b ++ ' ' :: tail2 → a = b ∧ tail1 = tail2 := by
  intro a
  induction a with
  | nil =>
    intro b tail1 tail2 _ hb heq
    cases b with
    | nil => simpa using heq
    | cons y ys =>
      simp only [List.nil_append, List.cons_append, List.cons.injEq] at heq
      exact absurd heq.1.symm (hb y (List.mem_cons_self _ _))
  | cons x xs ih =>
    intro b tail1 tail2 ha hb heq
    cases b with
    | nil =>
      simp only [List.nil_append, List.cons_append, List.cons.injEq] at heq
      exact absurd heq.1 (ha x (List.mem_cons_self _ _))
    | cons y ys =>
      simp only [List.cons_append, List.cons.injEq] at heq
      obtain ⟨hxy, hrest⟩ := heq
      have := ih ys tail1 tail2 (fun c hc => ha c (List.mem_cons_of_mem _ hc))
        (fun c hc => hb c (List.mem_cons_of_mem _ hc)) hrest
      exact ⟨by rw [hxy, this.1], this.2⟩

/-- The Author state string determines the author: the id renders with no
space and the name is everything after the first space-name separator. -/
theorem author_state_string_inj (a1 a2 : Author)
    (h : Author.state_string a1 = Author.state_string a2) : a1 = a2 := by
  unfold Author.state_string at h
  have hd := congrArg String.data h
  simp only [String.data_append, List.append_assoc] at hd
  have hd2 := List.append_cancel_left hd
  simp only [List.cons_append, List.nil_append] at hd2
  obtain ⟨hid, htail⟩ := no_space_sep _ _ _ _
    (fun c hc => intFmt_no_space hc) (fun c hc => intFmt_no_space hc) hd2
  simp only [List.cons.injEq, true_and] at htail
  have hida : a1.auth_id = a2.auth_id := intFmt_inj (congrArg String.mk hid)
  have hnm : a1.name = a2.name := congrArg String.mk htail
  cases a1
  cases a2
  simp_all

/-- Appending the same string on the right cancels. -/
theorem string_append_right_cancel {a b s : String} (h : a ++ s = b ++ s) : a = b := by
  have hd := congrArg String.data h
  simp only [String.data_append] at hd
  exact congrArg String.mk (List.append_cancel_right hd)

/-- Specification of the maximum-id row the DESC LIMIT 1 query selects: it
is a row of the table and bounds every id. -/
theorem maxRow_spec (r : Int × String) (rs : List (Int × String)) :
    ∃ m, maxRow (r :: rs) = some m ∧ m ∈ r :: rs ∧ ∀ x ∈ r :: rs, x.1 ≤ m.1 := by
  induction rs generalizing r with
  | nil =>
    refine ⟨r, rfl, List.mem_singleton_self r, ?_⟩
    simp
  | cons y ys ih =>
    obtain ⟨m, hmax, hmem, hbound⟩ := ih y
    by_cases hlt : r.1 < m.1
    · refine ⟨m, ?_, List.mem_cons_of_mem r hmem, ?_⟩
      · unfold maxRow
        rw [hmax]
        simp [hlt]
      · intro x hx
        rcases List.mem_cons.mp hx with hx | hx
        · exact hx ▸ le_of_lt hlt
        · exact hbound x hx
    · refine ⟨r, ?_, List.mem_cons_self r _, ?_⟩
      · unfold maxRow
        rw [hmax]
        simp [hlt]
      · intro x hx
        rcases List.mem_cons.mp hx with hx | hx
        · exact hx ▸ le_refl _
        · exact le_trans (hbound x hx) (not_lt.mp hlt)

/-! Section 8: the claims. -/

/-- Claim C1: for every content value, prior hash string and timestamp, the
hash chain link built by from_timestamp has string_to_hash equal to the
state string, the write_timestamp tag with the formatted timestamp, and the
prior_sha256 tag with the prior hash, concatenated in that order; and its
resulting hash is the lowercase hexadecimal SHA-256 digest of exactly that
string. -/
theorem c1_link_string_and_hash (T : Type) [Xtchable T] (p : String) (t : DateTime) (c : T) :
    (HashChainLink.from_timestamp p t c).string_to_hash =
      Xtchable.state_string c ++ " write_timestamp=" ++ time_fmt t ++ " prior_sha256=" ++ p
    ∧ (HashChainLink.from_timestamp p t c).new_sha256 =
      sha256 (Xtchable.state_string c ++ " write_timestamp=" ++ time_fmt t ++ " prior_sha256=" ++ p) :=
  ⟨rfl, rfl⟩

/-- Claim C2: reconstructing an envelope from the persisted facts rebuilds
the identical hash chain link, hence the identical string_to_hash and the
identical recomputed hash, and from_sql reconstruction is the same total
function of the stored facts. -/
theorem c2_roundtrip_reconstruction (T : Type) [Xtchable T] (prior_id : Option Int)
    (p : String) (t : DateTime) (c : T) (stored : String) :
    (XtchdContent.new prior_id p t c stored).hcl = HashChainLink.from_timestamp p t c
    ∧ (XtchdContent.new prior_id p t c stored).hcl.string_to_hash =
        (HashChainLink.from_timestamp p t c).string_to_hash
    ∧ (XtchdContent.new prior_id p t c stored).hcl.new_sha256 =
        (HashChainLink.from_timestamp p t c).new_sha256
    ∧ XtchdContent.from_sql ⟨prior_id, p, c, t, stored⟩ = XtchdContent.new prior_id p t c stored :=
  ⟨rfl, rfl, rfl, rfl⟩

/-- Claim C3: the chain-head read on an empty table returns no predecessor
id together with the sixty-four zero sentinel and next id zero, and on a
nonempty table it returns the id and hash of a highest-id row with next id
one more. -/
theorem c3_chain_head_and_next_id :
    GENESIS = String.mk (List.replicate 64 '0')
    ∧ get_last_row (chain_head_query []) = { prior_id := none, prior_sha256 := GENESIS }
    ∧ (get_last_row (chain_head_query [])).next_id = 0
    ∧ ∀ (r : Int × String) (rs : List (Int × String)), ∃ m,
        m ∈ r :: rs ∧ (∀ x ∈ r :: rs, x.1 ≤ m.1)
        ∧ get_last_row (chain_head_query (r :: rs)) =
            { prior_id := some m.1, prior_sha256 := m.2 }
        ∧ (get_last_row (chain_head_query (r :: rs))).next_id = m.1 + 1 := by
  refine ⟨by decide, rfl, rfl, ?_⟩
  intro r rs
  obtain ⟨m, hmax, hmem, hbound⟩ := maxRow_spec r rs
  refine ⟨m, hmem, hbound, ?_, ?_⟩
  · unfold chain_head_query
    rw [hmax]
    rfl
  · unfold chain_head_query
    rw [hmax]
    rfl

/-- Concrete timestamp shared by the concrete-input theorems. -/
def t0 : DateTime := ⟨2024, 1, 2, 3, 4, 5, 0⟩

/-- Claim C4, evaluated at the failing input: an error from the chain-head
lookup or from the insert makes add_author (and add_ref_article) end in a
panic, never in a returned error value. -/
theorem c4_add_author_panics_on_io_error :
    add_author_io (Except.error DiskError.transient) (Except.ok 1) t0 "Some Author"
        = RustOutcome.panicked
    ∧ (∀ e, add_author_io (Except.error DiskError.transient) (Except.ok 1) t0 "Some Author"
        ≠ RustOutcome.err e)
    ∧ add_author_io (Except.ok []) (Except.error DiskError.transient) t0 "Some Author"
        = RustOutcome.panicked
    ∧ add_ref_article_io (Except.error DiskError.transient) (Except.ok 1) t0
        ⟨⟨0, none, "c"⟩, 1, none⟩ = RustOutcome.panicked := by
  refine ⟨rfl, ?_, rfl, rfl⟩
  intro e h
  exact RustOutcome.noConfusion h

/-- First page of the collision pair: one paragraph whose text contains the
join separator. -/
def cexPage1 : ArticlePage :=
  { art_id := 1, apage_id := 2, paragraphs := ["a | b"], source := PageSrc.xtchd 3 }

/-- Second page of the collision pair: two paragraphs that join to the same
text. -/
def cexPage2 : ArticlePage :=
  { art_id := 1, apage_id := 2, paragraphs := ["a", "b"], source := PageSrc.xtchd 3 }

/-- Claim C5, counterexample: two ArticlePage values that differ in the
paragraphs field yet have the same state string, so the same timestamp and
prior hash give the same resulting hash; mutating a semantic field does
not always change the hash. -/
theorem c5_counterexample_same_hash_distinct_content :
    cexPage1 ≠ cexPage2
    ∧ ArticlePage.state_string cexPage1 = ArticlePage.state_string cexPage2
    ∧ (HashChainLink.from_timestamp GENESIS t0 cexPage1).new_sha256 =
        (HashChainLink.from_timestamp GENESIS t0 cexPage2).new_sha256 := by
  have hs : ArticlePage.state_string cexPage1 = ArticlePage.state_string cexPage2 := by decide
  refine ⟨by decide, hs, ?_⟩
  show sha256 (ArticlePage.state_string cexPage1 ++ " write_timestamp=" ++ time_fmt t0 ++
      " prior_sha256=" ++ GENESIS) =
    sha256 (ArticlePage.state_string cexPage2 ++ " write_timestamp=" ++ time_fmt t0 ++
      " prior_sha256=" ++ GENESIS)
  rw [hs]

/-- Claim C5 as amended: for the Author content type, two values that
differ in any semantic field never produce the same string_to_hash for the
same timestamp and prior hash, so any mutation changes the exact string
the hash is computed from. -/
theorem c5_amended_author_tamper (a1 a2 : Author) (t : DateTime) (p : String)
    (hne : a1 ≠ a2) :
    (HashChainLink.from_timestamp p t a1).string_to_hash ≠
      (HashChainLink.from_timestamp p t a2).string_to_hash := by
  intro hs
  apply hne
  apply author_state_string_inj
  have hs2 : Author.state_string a1 ++ " write_timestamp=" ++ time_fmt t ++
        " prior_sha256=" ++ p =
      Author.state_string a2 ++ " write_timestamp=" ++ time_fmt t ++
        " prior_sha256=" ++ p := hs
  exact string_append_right_cancel (string_append_right_cancel
    (string_append_right_cancel (string_append_right_cancel hs2)))

/-- First author of the concrete tamper pair. -/
def cexAuthorA : Author := ⟨0, "a"⟩

/-- Second author of the concrete tamper pair, differing in the name. -/
def cexAuthorB : Author := ⟨0, "b"⟩

/-- Claim C5, witness at a concrete input: the two concrete authors give
distinct hash input strings. -/
theorem c5_amended_witness :
    (HashChainLink.from_timestamp "p" t0 cexAuthorA).string_to_hash ≠
      (HashChainLink.from_timestamp "p" t0 cexAuthorB).string_to_hash :=
  c5_amended_author_tamper cexAuthorA cexAuthorB t0 "p" (by decide)

/-- Claim C6: the hashed timestamp rendering is the fixed dotted
year-month-day space hour-minute-second pattern, truncated to whole
seconds: it never depends on the sub-second field, and a concrete instant
shows the zero-padded pattern. -/
theorem c6_time_fmt_whole_seconds (y mo d hr mi s n1 n2 : Nat) :
    time_fmt ⟨y, mo, d, hr, mi, s, n1⟩ =
      padNum 4 y ++ "." ++ padNum 2 mo ++ "." ++ padNum 2 d ++ " " ++
      padNum 2 hr ++ ":" ++ padNum 2 mi ++ ":" ++ padNum 2 s
    ∧ time_fmt ⟨y, mo, d, hr, mi, s, n1⟩ = time_fmt ⟨y, mo, d, hr, mi, s, n2⟩
    ∧ time_fmt ⟨2024, 3, 7, 4, 30, 9, 987654321⟩ = "2024.03.07 04:30:09" :=
  ⟨rfl, rfl, by decide⟩

/-- Claim C7: an absent optional field renders through nonefmt as the empty
string segment, never a None or null token, a present value renders bare,
and the ImmutableImage state string shows the empty segments in place. -/
theorem c7_nonefmt_empty_segment (α : Type) (fmt : α → String) (v : α)
    (img_id : Int) (src_full src_thmb alt : String) :
    nonefmt fmt none = ""
    ∧ nonefmt fmt (some v) = fmt v
    ∧ nonefmt fmt none ≠ "None"
    ∧ nonefmt fmt none ≠ "null"
    ∧ ImmutableImage.state_string ⟨img_id, ⟨src_full, src_thmb, alt, none, none⟩⟩ =
        "img_id=" ++ intFmt img_id ++ " src_full=" ++ src_full ++ " src_thmb=" ++ src_thmb ++
        " alt=" ++ alt ++ " url=" ++ "" ++ " archive=" ++ "" :=
  ⟨rfl, rfl, by simp [nonefmt], by simp [nonefmt], rfl⟩

/-- Claim C8 as amended: add_author appends exactly one row as its single
insert, the row carrying exactly the returned content and the returned
chain link hash, and returns the content with its link; add_article issues
a second image_files INSERT when an image file is given (and only then);
and add_ref_article returns only the newly assigned id, not the content
with its chain link. -/
theorem c8_amended_write_contract (tbl : List AuthorRow) (atbl : List ArticleRow)
    (ifiles : List String) (rows : List (Int × String)) (n : Nat) (t : DateTime)
    (name title f : String) (auth_id : Int) (req : ArticleRefArticleReq) :
    (add_author_state tbl t name).table =
      tbl ++ [{
        prior_id := (get_last_row (chain_head_query (tbl.map fun r => (r.auth_id, r.new_sha256)))).prior_id,
        auth_id := (add_author_state tbl t name).author.auth_id,
        name := (add_author_state tbl t name).author.name,
        prior_sha256 := (get_last_row (chain_head_query (tbl.map fun r => (r.auth_id, r.new_sha256)))).prior_sha256,
        write_timestamp := (add_author_state tbl t name).hclink.write_timestamp,
        new_sha256 := (add_author_state tbl t name).hclink.new_sha256 }]
    ∧ (add_author_state tbl t name).table.length = tbl.length + 1
    ∧ (add_author_state tbl t name).author.name = name
    ∧ (add_article_state atbl ifiles t auth_id title (some f)).statements = 2
    ∧ (add_article_state atbl ifiles t auth_id title (some f)).image_files =
        image_files_insert ifiles f
    ∧ (add_article_state atbl ifiles t auth_id title none).statements = 1
    ∧ (add_article_state atbl ifiles t auth_id title none).image_files = ifiles
    ∧ add_ref_article_io (Except.ok rows) (Except.ok n) t req =
        RustOutcome.ok (get_last_row rows).next_id :=
  ⟨rfl, by simp [add_author_state], rfl, rfl, rfl, rfl, rfl, rfl⟩

/-- Stored video row against which the conflicting insert is attempted. -/
def cexVidRow : VideoRow :=
  { prior_id := none, vid_id := 0, vid_pk := "abcdefghijk", chan_id := 0, title := "first title",
    date_uploaded := ⟨2020, 1, 1⟩, prior_sha256 := GENESIS, write_timestamp := t0,
    new_sha256 := "e3b0c44298fc1c149afbf4c8996fb92427ae41e4649b934ca495991b7852b855" }

/-- Claim C8, counterexample: with a conflicting vid_pk the ON CONFLICT DO
NOTHING insert of add_youtube_video writes no row, yet the call still
returns the new content and hash as if persisted: the table is unchanged
and holds no row with the returned id or title. -/
theorem c8_counterexample_conflict_returns_without_insert :
    (add_youtube_video_state [cexVidRow] t0 0 "abcdefghijk" "other title" ⟨2021, 2, 2⟩).table
        = [cexVidRow]
    ∧ (add_youtube_video_state [cexVidRow] t0 0 "abcdefghijk" "other title" ⟨2021, 2, 2⟩).video.vid_id = 1
    ∧ (add_youtube_video_state [cexVidRow] t0 0 "abcdefghijk" "other title" ⟨2021, 2, 2⟩).video.title
        = "other title"
    ∧ ∀ r ∈ (add_youtube_video_state [cexVidRow] t0 0 "abcdefghijk" "other title" ⟨2021, 2, 2⟩).table,
        r.vid_id ≠ 1 := by
  refine ⟨rfl, rfl, rfl, ?_⟩
  intro r hr
  have : r = cexVidRow := by
    have ht : (add_youtube_video_state [cexVidRow] t0 0 "abcdefghijk" "other title" ⟨2021, 2, 2⟩).table
        = [cexVidRow] := rfl
    rw [ht] at hr
    simpa using hr
  rw [this]
  decide

/-- Claim C9: the single-row detail reads return the distinct missing-row
error on an empty result, never an integrity error and never success, and
on a returned row they succeed with the content built from that row. -/
theorem c9_detail_reads_missing_row (auth_id : Int) (atRow : ArticleTextRow)
    (atRest : List ArticleTextRow) (adRow : AuthorDetailRow) (adRest : List AuthorDetailRow) :
    article_text [] = Except.error DiskError.missingRow
    ∧ author_detail auth_id [] = Except.error DiskError.missingRow
    ∧ DiskError.missingRow ≠ DiskError.integrityViolation
    ∧ article_text (atRow :: atRest) =
        Except.ok { author := atRow.author, article := atRow.article, paragraphs := atRow.art_paras }
    ∧ author_detail auth_id (adRow :: adRest) =
        Except.ok {
          author := (XtchdContent.new adRow.prior_id adRow.prior_sha256
            adRow.write_timestamp (Author.mk auth_id adRow.name) adRow.new_sha256),
          articles := adRow.authored } :=
  ⟨rfl, rfl, by decide, rfl, rfl⟩

/-- Claim C10: two ImmutableImage values differing only in an optional
field that is absent in one and the empty string in the other have
identical state strings, hence identical hash inputs and identical hashes
for every common timestamp and prior hash. -/
theorem c10_none_vs_empty_string_hash_collision :
    ∃ v1 v2 : ImmutableImage,
      v1 ≠ v2
      ∧ v1.pair.url = none ∧ v2.pair.url = some ""
      ∧ v1.img_id = v2.img_id ∧ v1.pair.src_full = v2.pair.src_full
      ∧ v1.pair.src_thmb = v2.pair.src_thmb ∧ v1.pair.alt = v2.pair.alt
      ∧ v1.pair.archive = v2.pair.archive
      ∧ ImmutableImage.state_string v1 = ImmutableImage.state_string v2
      ∧ ∀ (t : DateTime) (p : String),
          (HashChainLink.from_timestamp p t v1).string_to_hash =
            (HashChainLink.from_timestamp p t v2).string_to_hash
          ∧ (HashChainLink.from_timestamp p t v1).new_sha256 =
            (HashChainLink.from_timestamp p t v2).new_sha256 := by
  refine ⟨⟨7, ⟨"f", "tb", "alt text", none, none⟩⟩, ⟨7, ⟨"f", "tb", "alt text", some "", none⟩⟩,
    by decide, rfl, rfl, rfl, rfl, rfl, rfl, rfl, rfl, ?_⟩
  intro t p
  exact ⟨rfl, rfl⟩

end Xtchd
